import Mathlib

/-!
Verification of the session-arbiter core of the `ogame` automation client.

The Go source in `prioritize.go` implements a reentrant transaction handle
(`Prioritize`) over an atomic `int32` depth counter: the first `begin` on a
handle acquires the bot's exclusive section (`botLock`), nested `begin`/`done`
calls merely adjust the counter, and the last `done` releases the section
(`botUnlock`) and closes the handle's one-shot completion channel
(`taskIsDoneCh`).  Every public API method wraps its underlying bot call in a
`begin`/`defer done` pair.

We embed the handle as a record together with an explicit event trace: calls
into the scheduler (`botLock` / `botUnlock`), the closing of the completion
channel, and the invocation of the underlying bot operation are recorded as
events.  Domain parameters and results of the bot calls do not influence the
handle and are abstracted; the bot call itself is kept as a named event so
that its position relative to the lock events is visible.  The `int32`
arithmetic of `sync/atomic.AddInt32` is modelled exactly, as wrapping
two's-complement addition on `Int`.
-/

namespace Ogame

/-- Priority constants from `prioritize.go`:
`const ( Low = 1; Normal = 2; Important = 3; Critical = 4 )`. -/
def Low : Int := 1

/-- `Normal = 2`. -/
def Normal : Int := 2

/-- `Important = 3`. -/
def Important : Int := 3

/-- `Critical = 4`. -/
def Critical : Int := 4

/-- Two's-complement wrap-around into the `int32` range, used to model Go's
`sync/atomic.AddInt32`. -/
def wrap32 (x : Int) : Int := (x + 2 ^ 31) % 2 ^ 32 - 2 ^ 31

/-- `atomic.AddInt32(&x, d)`: wrapping 32-bit signed addition, returning the
new value. -/
def addInt32 (x d : Int) : Int := wrap32 (x + d)

/-- Observable events of a handle: calls into the scheduler
(`botLock`/`botUnlock` with the display name), closing the one-shot
completion channel `taskIsDoneCh`, and invocation of an underlying bot
operation. -/
inductive Event where
  | lock (label : String)
  | unlock (label : String)
  | closeSignal
  | botCall (fn : String)
  deriving DecidableEq, Repr

/-- The `Prioritize` struct of `prioritize.go`.  The channel `taskIsDoneCh`
is modelled by the flag `signalClosed` (`false` = open, `true` = closed);
the `bot` pointer is dropped because interactions with the bot are recorded
in the event trace instead. -/
structure Prioritize where
  initiator : String
  name : String
  isTx : Int
  signalClosed : Bool
  deriving DecidableEq, Repr

/-- A handle as freshly created by the library: empty labels, depth 0, open
completion channel. -/
def freshHandle : Prioritize :=
  { initiator := "", name := "", isTx := 0, signalClosed := false }

/-- `func (b *Prioritize) SetInitiator(initiator string) Prioritizable`. -/
def SetInitiator (b : Prioritize) (initiator : String) : Prioritize :=
  { b with initiator := initiator }

/-- `func (b *Prioritize) begin(name string) *Prioritize`:
```
if atomic.AddInt32(&b.isTx, 1) == 1 {
    if b.initiator != "" {
        b.name = b.initiator + ":"
    }
    b.name += name
    b.bot.botLock(b.name)
}
```
Returns the updated handle and the emitted events. -/
def begin (b : Prioritize) (name : String) : Prioritize × List Event :=
  let d := addInt32 b.isTx 1
  let b := { b with isTx := d }
  if d = 1 then
    let b := if b.initiator ≠ "" then { b with name := b.initiator ++ ":" } else b
    let b := { b with name := b.name ++ name }
    (b, [Event.lock b.name])
  else
    (b, [])

/-- `func (b *Prioritize) done()`:
```
if atomic.AddInt32(&b.isTx, -1) == 0 {
    defer close(b.taskIsDoneCh)
    b.bot.botUnlock(b.name)
}
```
The deferred `close` runs after `botUnlock` returns, hence the event order. -/
def done (b : Prioritize) : Prioritize × List Event :=
  let d := addInt32 b.isTx (-1)
  let b := { b with isTx := d }
  if d = 0 then
    ({ b with signalClosed := true }, [Event.unlock b.name, Event.closeSignal])
  else
    (b, [])

/-- `BeginNamed(name)`: substitutes the default name `"Tx"` for an empty
name, then calls `begin`. -/
def BeginNamed (b : Prioritize) (name : String) : Prioritize × List Event :=
  begin b (if name = "" then "Tx" else name)

/-- `Begin()` = `BeginNamed("Tx")`. -/
def Begin (b : Prioritize) : Prioritize × List Event :=
  BeginNamed b "Tx"

/-- `Done()` = `done()`. -/
def Done (b : Prioritize) : Prioritize × List Event :=
  done b

/-- Number of scheduler-acquire events (`botLock` calls) in a trace. -/
def lockCount (t : List Event) : Nat :=
  t.countP fun e => match e with | Event.lock _ => true | _ => false

/-- Number of scheduler-release events (`botUnlock` calls) in a trace. -/
def unlockCount (t : List Event) : Nat :=
  t.countP fun e => match e with | Event.unlock _ => true | _ => false

/-- Number of completion-channel closes in a trace. -/
def closeCount (t : List Event) : Nat :=
  t.countP fun e => match e with | Event.closeSignal => true | _ => false

/-- Labels of the scheduler-acquire events of a trace, in order. -/
def lockLabels (t : List Event) : List String :=
  t.filterMap fun e => match e with | Event.lock l => some l | _ => none

/-- `x` is representable as a Go `int32`. -/
def inInt32 (x : Int) : Prop := -2 ^ 31 ≤ x ∧ x < 2 ^ 31

/-- Outcome of a callback in Go: either a normal return carrying an error
value (`none` models a `nil` error), or a panic that unwinds through the
caller. -/
inductive FnRes (ε : Type) where
  | ok (e : Option ε)
  | panics
  deriving DecidableEq, Repr

/-- `func (b *Prioritize) Tx(clb func(Prioritizable) error) error`:
```
tx := b.Begin()
defer tx.Done()
err := clb(tx)
return err
```
The callback is modelled as a state transformer that also reports its trace
and outcome.  Go's `defer` runs `Done` both on the normal return path and
while unwinding a panic, hence `done` is applied in both branches, and the
outcome (error value or panic) is passed through unchanged. -/
def Tx {ε : Type} (b : Prioritize)
    (clb : Prioritize → Prioritize × List Event × FnRes ε) :
    Prioritize × List Event × FnRes ε :=
  let (tx, t1) := Begin b
  match clb tx with
  | (s2, t2, FnRes.ok e) =>
      let (s3, t3) := done s2
      (s3, t1 ++ t2 ++ t3, FnRes.ok e)
  | (s2, t2, FnRes.panics) =>
      let (s3, t3) := done s2
      (s3, t1 ++ t2 ++ t3, FnRes.panics)

/-- `func (b *Prioritize) Login() error`:
`b.begin("Login"); defer b.done(); return b.bot.wrapLogin()`.
The deferred `done` runs after the bot call returns, so the bot-call event
sits between `begin`'s and `done`'s events. -/
def Login (b : Prioritize) : Prioritize × List Event :=
  let r1 := begin b "Login"
  let r2 := done r1.1
  (r2.1, r1.2 ++ [Event.botCall "wrapLogin"] ++ r2.2)

/-- `Logout()`: `b.begin("Logout"); defer b.done(); b.bot.logout()`. -/
def Logout (b : Prioritize) : Prioritize × List Event :=
  let r1 := begin b "Logout"
  let r2 := done r1.1
  (r2.1, r1.2 ++ [Event.botCall "logout"] ++ r2.2)

/-- `GetPlanets()`: `b.begin("GetPlanets"); defer b.done(); return
b.bot.getPlanets()`. -/
def GetPlanets (b : Prioritize) : Prioritize × List Event :=
  let r1 := begin b "GetPlanets"
  let r2 := done r1.1
  (r2.1, r1.2 ++ [Event.botCall "getPlanets"] ++ r2.2)

/-- `GetPageContent(vals)`: `b.begin("GetPageContent"); defer b.done();
return b.bot.getPageContent(vals)`.  The `url.Values` argument does not
influence the handle and is abstracted. -/
def GetPageContent (b : Prioritize) : Prioritize × List Event :=
  let r1 := begin b "GetPageContent"
  let r2 := done r1.1
  (r2.1, r1.2 ++ [Event.botCall "getPageContent"] ++ r2.2)

/-- `Build(celestialID, id, nbr)`: `b.begin("Build"); defer b.done();
return b.bot.build(celestialID, id, nbr)`. -/
def Build (b : Prioritize) : Prioritize × List Event :=
  let r1 := begin b "Build"
  let r2 := done r1.1
  (r2.1, r1.2 ++ [Event.botCall "build"] ++ r2.2)

/-- `SendFleet(...)`: `b.begin("SendFleet"); defer b.done(); return
b.bot.sendFleet(..., false)`. -/
def SendFleet (b : Prioritize) : Prioritize × List Event :=
  let r1 := begin b "SendFleet"
  let r2 := done r1.1
  (r2.1, r1.2 ++ [Event.botCall "sendFleet"] ++ r2.2)

/-- `GetFleets(opts...)`: `b.begin("GetFleets"); defer b.done(); return
b.bot.getFleets(opts...)`. -/
def GetFleets (b : Prioritize) : Prioritize × List Event :=
  let r1 := begin b "GetFleets"
  let r2 := done r1.1
  (r2.1, r1.2 ++ [Event.botCall "getFleets"] ++ r2.2)

/-- `GetFleetsFromEventList()`: `b.begin("GetFleets"); defer b.done();
return b.bot.getFleetsFromEventList()` — note the begin label is
`"GetFleets"`, not `"GetFleetsFromEventList"`. -/
def GetFleetsFromEventList (b : Prioritize) : Prioritize × List Event :=
  let r1 := begin b "GetFleets"
  let r2 := done r1.1
  (r2.1, r1.2 ++ [Event.botCall "getFleetsFromEventList"] ++ r2.2)

/-- `Phalanx(moonID, coord)`: `b.begin("Phalanx"); defer b.done(); return
b.bot.getPhalanx(moonID, coord)`. -/
def Phalanx (b : Prioritize) : Prioritize × List Event :=
  let r1 := begin b "Phalanx"
  let r2 := done r1.1
  (r2.1, r1.2 ++ [Event.botCall "getPhalanx"] ++ r2.2)

/-- `UnsafePhalanx(moonID, coord)`: `b.begin("Phalanx"); defer b.done();
return b.bot.getUnsafePhalanx(moonID, coord)` — note the begin label is
`"Phalanx"`, not `"UnsafePhalanx"`. -/
def UnsafePhalanx (b : Prioritize) : Prioritize × List Event :=
  let r1 := begin b "Phalanx"
  let r2 := done r1.1
  (r2.1, r1.2 ++ [Event.botCall "getUnsafePhalanx"] ++ r2.2)

/-!
## The priority scheduler

The exclusive section itself (`botLock` / `botUnlock` on the `OGame` value)
lives outside `prioritize.go`; only its call sites appear there.  Following
the specification, we model it as a transition system over a scheduler
state: a queue of pending admission requests and the set of currently
admitted requests.
-/

/-- Modelled from the spec: a *Pending Request* — "(handle identity, name
label, priority, enqueue time)".  The label is omitted as irrelevant to
admission. -/
structure Request where
  rid : Nat
  priority : Int
  enqueueTime : Nat
  deriving DecidableEq, Repr

/-- Modelled from the spec: the scheduler's state — the waiting queue and
the identities of currently admitted requests (kept as a list so that
"at most one admitted" is a proved invariant, not a typing artifact). -/
structure SchedState where
  waiting : List Request
  admitted : List Nat
  deriving DecidableEq, Repr

/-- The scheduler before any request: empty queue, nothing admitted. -/
def schedInit : SchedState := { waiting := [], admitted := [] }

/-- Modelled from the spec: admission ordering — "among currently waiting
requests, the highest-priority request is admitted next; requests of equal
priority are admitted in FIFO (enqueue-time) order". -/
def bestOf (r : Request) (q : List Request) : Prop :=
  ∀ r' ∈ q, r'.priority < r.priority ∨
    (r'.priority = r.priority ∧ r.enqueueTime ≤ r'.enqueueTime)

/-- Scheduler events: a request joins the queue, is admitted into the
exclusive section, or releases it. -/
inductive SchedEv where
  | enqueue (r : Request)
  | grant (rid : Nat)
  | release (rid : Nat)
  deriving DecidableEq, Repr

/-- Modelled from the spec: the scheduler's transitions.  `Acquire`
registers a pending request and blocks; a waiter is admitted only when the
exclusive section is free (`admitted = []`) and it is the best waiting
request; `Release` relinquishes the section.  `botLock`/`botUnlock` are the
source's entry points to this scheduler, absent from `prioritize.go`. -/
inductive SchedStep : SchedState → SchedEv → SchedState → Prop where
  | enqueue (s : SchedState) (r : Request) :
      SchedStep s (SchedEv.enqueue r) { s with waiting := s.waiting ++ [r] }
  | grant (s : SchedState) (r : Request) (hfree : s.admitted = [])
      (hmem : r ∈ s.waiting) (hbest : bestOf r s.waiting) :
      SchedStep s (SchedEv.grant r.rid)
        { waiting := s.waiting.erase r, admitted := [r.rid] }
  | release (s : SchedState) (rid : Nat) (hold : s.admitted = [rid]) :
      SchedStep s (SchedEv.release rid) { s with admitted := [] }

/-- Reflexive-transitive closure of `SchedStep`, recording the event
trace. -/
inductive SchedTrace : SchedState → List SchedEv → SchedState → Prop where
  | nil (s : SchedState) : SchedTrace s [] s
  | cons {s s' s'' : SchedState} {e : SchedEv} {es : List SchedEv}
      (h1 : SchedStep s e s') (h2 : SchedTrace s' es s'') :
      SchedTrace s (e :: es) s''

/-!
## `ReplaceHostname`

The source replaces the bot's server URL by the configured new hostname in
three sequential `bytes.Replace(..., -1)` passes: the plain form, the
JSON-escaped form (`/` written `\/`), and the double-escaped form (`/`
written `\\\/`).  Byte strings are modelled as `List Char`, one `Char` per
byte. -/
abbrev Bytes := List Char

/-- `leadsWith old s`: `old` is a prefix of `s`. -/
def leadsWith : Bytes → Bytes → Bool
  | [], _ => true
  | _ :: _, [] => false
  | a :: as, b :: bs => a == b && leadsWith as bs

/-- Left-to-right replacement of non-overlapping occurrences of a nonempty
pattern, fuelled for structural recursion; with `fuel ≥ s.length` the fuel
never runs out. -/
def replaceNE : Nat → Bytes → Bytes → Bytes → Bytes
  | 0, s, _, _ => s
  | _ + 1, [], _, _ => []
  | fuel + 1, c :: s, old, new =>
      if leadsWith old (c :: s) then
        new ++ replaceNE fuel (List.drop old.length (c :: s)) old new
      else
        c :: replaceNE fuel s old new

/-- Go's `bytes.Replace(s, old, new, -1)`: replaces all non-overlapping
instances of `old` in `s` by `new`, left to right; an empty `old` matches at
the beginning and after each element, inserting `new` at every boundary. -/
def bytesReplace (s old new : Bytes) : Bytes :=
  if old = [] then s.foldr (fun c acc => new ++ c :: acc) new
  else replaceNE s.length s old new

/-- The JSON-escaped form built by the source:
`bytes.Replace(b, []byte("/"), []byte("\\/"), -1)` — each `/` becomes
backslash-slash. -/
def escapedForm (b : Bytes) : Bytes :=
  bytesReplace b ['/'] ['\\', '/']

/-- The double-escaped form built by the source:
`bytes.Replace(b, []byte("/"), []byte("\\\\\\/"), -1)` — each `/` becomes
three backslashes and a slash. -/
def doubleEscapedForm (b : Bytes) : Bytes :=
  bytesReplace b ['/'] ['\\', '\\', '\\', '/']

/-- `func ReplaceHostname(bot *OGame, html []byte) []byte`: three sequential
global replacements — plain server URL, JSON-escaped, double-escaped — each
pass operating on the output of the previous one.  The bot argument is
reduced to the two strings actually read from it (`bot.ServerURL()` and
`bot.apiNewHostname`). -/
def ReplaceHostname (serverURL apiNewHostname html : Bytes) : Bytes :=
  let html1 := bytesReplace html serverURL apiNewHostname
  let html2 := bytesReplace html1 (escapedForm serverURL) (escapedForm apiNewHostname)
  let html3 := bytesReplace html2 (doubleEscapedForm serverURL) (doubleEscapedForm apiNewHostname)
  html3

/-- Specification of one global replacement pass: `ReplSpec old new s t`
holds when `t` is `s` with every leftmost non-overlapping occurrence of
`old` replaced by `new` and all other elements unchanged. -/
inductive ReplSpec (old new : Bytes) : Bytes → Bytes → Prop where
  | nil : ReplSpec old new [] []
  | hit {s t : Bytes} : ReplSpec old new s t →
      ReplSpec old new (old ++ s) (new ++ t)
  | skip {c : Char} {s t : Bytes} (hno : leadsWith old (c :: s) = false) :
      ReplSpec old new s t → ReplSpec old new (c :: s) (c :: t)

/-- The claim's reading of `ReplaceHostname` as one simultaneous pass:
every occurrence of the server URL in any of its three encodings
(`p1`/`p2`/`p3`) is replaced by the corresponding encoding of the new
hostname (`r1`/`r2`/`r3`), and bytes not part of such an occurrence are
unchanged. -/
inductive TripleRepl (p1 r1 p2 r2 p3 r3 : Bytes) : Bytes → Bytes → Prop where
  | nil : TripleRepl p1 r1 p2 r2 p3 r3 [] []
  | hit1 {s t : Bytes} : TripleRepl p1 r1 p2 r2 p3 r3 s t →
      TripleRepl p1 r1 p2 r2 p3 r3 (p1 ++ s) (r1 ++ t)
  | hit2 {s t : Bytes} : TripleRepl p1 r1 p2 r2 p3 r3 s t →
      TripleRepl p1 r1 p2 r2 p3 r3 (p2 ++ s) (r2 ++ t)
  | hit3 {s t : Bytes} : TripleRepl p1 r1 p2 r2 p3 r3 s t →
      TripleRepl p1 r1 p2 r2 p3 r3 (p3 ++ s) (r3 ++ t)
  | skip {c : Char} {s t : Bytes} (h1 : leadsWith p1 (c :: s) = false)
      (h2 : leadsWith p2 (c :: s) = false)
      (h3 : leadsWith p3 (c :: s) = false) :
      TripleRepl p1 r1 p2 r2 p3 r3 s t →
      TripleRepl p1 r1 p2 r2 p3 r3 (c :: s) (c :: t)

theorem addInt32_one_sub_one {x : Int} (h : inInt32 x) :
    addInt32 (addInt32 x 1) (-1) = x := by
  obtain ⟨h1, h2⟩ := h
  unfold addInt32 wrap32
  omega

theorem addInt32_one_of_lt {x : Int} (h1 : -2 ^ 31 ≤ x) (h2 : x < 2 ^ 31 - 1) :
    addInt32 x 1 = x + 1 := by
  unfold addInt32 wrap32
  omega

theorem addInt32_neg_one_of_le {x : Int} (h1 : -2 ^ 31 < x) (h2 : x < 2 ^ 31) :
    addInt32 x (-1) = x - 1 := by
  unfold addInt32 wrap32
  omega

/-- **C7.** The priority constants exposed to callers are exactly
`Low = 1`, `Normal = 2`, `Important = 3`, `Critical = 4`, giving the strict
order `Low < Normal < Important < Critical`. -/
theorem priority_constants :
    Low = 1 ∧ Normal = 2 ∧ Important = 3 ∧ Critical = 4 ∧
      Low < Normal ∧ Normal < Important ∧ Important < Critical := by
  refine ⟨rfl, rfl, rfl, rfl, ?_, ?_, ?_⟩ <;> decide

/-- **C1.** Reentrancy: starting from depth 0, the call sequence
`Begin(); Begin(); Done(); Done()` emits exactly one scheduler acquire
(on the first `Begin`) and exactly one scheduler release (on the last
`Done`); the intermediate `Begin` and `Done` emit no events at all and only
move the depth counter (to 2, then back to 1). -/
theorem reentrant_lock_once (s : Prioritize) (h : s.isTx = 0) :
    lockCount (Begin s).2 = 1 ∧ unlockCount (Begin s).2 = 0 ∧
      (Begin (Begin s).1).2 = [] ∧ (Begin (Begin s).1).1.isTx = 2 ∧
      (Done (Begin (Begin s).1).1).2 = [] ∧
      (Done (Begin (Begin s).1).1).1.isTx = 1 ∧
      lockCount (Done (Done (Begin (Begin s).1).1).1).2 = 0 ∧
      unlockCount (Done (Done (Begin (Begin s).1).1).1).2 = 1 := by
  simp only [Begin, BeginNamed, begin, Done, done, h]
  norm_num [addInt32, wrap32]
  split <;> simp [lockCount, unlockCount, List.countP, List.countP.go]

/-- Witness for `reentrant_lock_once` at a concrete fresh handle. -/
theorem reentrant_lock_once_witness :
    lockCount (Begin freshHandle).2 = 1 ∧ unlockCount (Begin freshHandle).2 = 0 ∧
      (Begin (Begin freshHandle).1).2 = [] ∧
      (Begin (Begin freshHandle).1).1.isTx = 2 ∧
      (Done (Begin (Begin freshHandle).1).1).2 = [] ∧
      (Done (Begin (Begin freshHandle).1).1).1.isTx = 1 ∧
      lockCount (Done (Done (Begin (Begin freshHandle).1).1).1).2 = 0 ∧
      unlockCount (Done (Done (Begin (Begin freshHandle).1).1).1).2 = 1 :=
  reentrant_lock_once freshHandle rfl

/-- **C3.** `Done` decrements the depth counter; exactly when the counter
reaches 0 it releases the exclusive section (`botUnlock`) and then closes the
completion channel; when the counter stays above 0 it does neither.  `done`
has no error result, so on reaching 0 the release events are emitted
unconditionally. -/
theorem done_releases_at_zero (s : Prioritize) (h1 : 1 ≤ s.isTx)
    (h2 : s.isTx < 2 ^ 31) :
    (Done s).1.isTx = s.isTx - 1 ∧
      (s.isTx = 1 →
        (Done s).2 = [Event.unlock s.name, Event.closeSignal] ∧
          (Done s).1.signalClosed = true) ∧
      (1 < s.isTx → (Done s).2 = [] ∧ (Done s).1.signalClosed = s.signalClosed) := by
  have hadd : addInt32 s.isTx (-1) = s.isTx - 1 :=
    addInt32_neg_one_of_le (by omega) h2
  simp only [Done, done, hadd]
  refine ⟨?_, ?_, ?_⟩
  · split <;> simp
  · intro h0
    rw [if_pos (by omega)]
    exact ⟨rfl, rfl⟩
  · intro h0
    rw [if_neg (by omega)]
    exact ⟨rfl, rfl⟩

/-- Witness for `done_releases_at_zero` at depth 1. -/
theorem done_releases_at_zero_witness :
    ((Done { freshHandle with isTx := 1, name := "Tx" }).1.isTx =
        ({ freshHandle with isTx := 1, name := "Tx" } : Prioritize).isTx - 1 ∧
      (({ freshHandle with isTx := 1, name := "Tx" } : Prioritize).isTx = 1 →
        (Done { freshHandle with isTx := 1, name := "Tx" }).2 =
            [Event.unlock "Tx", Event.closeSignal] ∧
          (Done { freshHandle with isTx := 1, name := "Tx" }).1.signalClosed = true) ∧
      (1 < ({ freshHandle with isTx := 1, name := "Tx" } : Prioritize).isTx →
        (Done { freshHandle with isTx := 1, name := "Tx" }).2 = [] ∧
          (Done { freshHandle with isTx := 1, name := "Tx" }).1.signalClosed =
            ({ freshHandle with isTx := 1, name := "Tx" } : Prioritize).signalClosed)) :=
  done_releases_at_zero { freshHandle with isTx := 1, name := "Tx" }
    (by decide) (by decide)

/-- **C6.** Display-name composition on a fresh handle (depth 0, no name
composed yet): `Begin()` and `BeginNamed("")` use the default name `"Tx"`;
the label passed to the scheduler is `initiator ++ ":" ++ name` when the
initiator set before the first `Begin` is nonempty, and just `name`
otherwise. -/
theorem begin_name_composition (s : Prioritize) (i nm : String)
    (h : s.isTx = 0) (hn : s.name = "") :
    (Begin (SetInitiator s i)).2 =
        [Event.lock (if i ≠ "" then i ++ ":" ++ "Tx" else "Tx")] ∧
      (BeginNamed (SetInitiator s i) "").2 =
        [Event.lock (if i ≠ "" then i ++ ":" ++ "Tx" else "Tx")] ∧
      (nm ≠ "" →
        (BeginNamed (SetInitiator s i) nm).2 =
          [Event.lock (if i ≠ "" then i ++ ":" ++ nm else nm)]) := by
  have hone : addInt32 (0 : Int) 1 = 1 := by decide
  refine ⟨?_, ?_, fun hnm => ?_⟩ <;>
    · simp only [Begin, BeginNamed, SetInitiator, begin, h, hone, if_pos rfl]
      by_cases hi : i = "" <;> simp [hi, hn, String.append_assoc] <;>
        simp_all

/-- Witness for `begin_name_composition` with a nonempty initiator. -/
theorem begin_name_composition_witness :
    ((Begin (SetInitiator freshHandle "job")).2 =
        [Event.lock (if "job" ≠ "" then "job" ++ ":" ++ "Tx" else "Tx")] ∧
      (BeginNamed (SetInitiator freshHandle "job") "").2 =
        [Event.lock (if "job" ≠ "" then "job" ++ ":" ++ "Tx" else "Tx")] ∧
      ("Login" ≠ "" →
        (BeginNamed (SetInitiator freshHandle "job") "Login").2 =
          [Event.lock (if "job" ≠ "" then "job" ++ ":" ++ "Login" else "Login")])) :=
  begin_name_composition freshHandle "job" "Login" rfl rfl

/-- **C5, counterexample.** `begin` does not create a fresh completion
signal on a 0→1 depth transition: the signal (`taskIsDoneCh`) is created
once when the handle is created, and `begin`'s body touches only the depth
counter, the name, and `botLock`.  Running `Begin(); Done()` on a fresh
handle closes the signal; a second `Begin()` is again a 0→1 transition, yet
afterwards the handle's signal is still the closed one (no fresh signal
exists), and a second `Done()` closes the same signal a second time, so the
full trace carries two close events for the one signal the handle ever
had. -/
theorem begin_no_fresh_signal :
    (Begin (Done (Begin freshHandle).1).1).1.signalClosed = true ∧
      closeCount ((Begin freshHandle).2 ++ (Done (Begin freshHandle).1).2 ++
          (Begin (Done (Begin freshHandle).1).1).2 ++
          (Done (Begin (Done (Begin freshHandle).1).1).1).2) = 2 := by
  constructor
  · rfl
  · rfl

/-- **C5, amended.** The completion signal exists from handle creation and
`begin` never creates a new one: any `begin` leaves the `signalClosed` flag
unchanged.  For a fresh handle (depth 0, signal open), `Begin()` keeps the
signal open, and the matching `Done()` closes it, with exactly one close
event in the combined trace — the signal of a fresh handle is fulfilled
exactly once when depth returns to 0. -/
theorem completion_signal_lifecycle (s : Prioritize) (nm : String)
    (h : s.isTx = 0) (hs : s.signalClosed = false) :
    (begin s nm).1.signalClosed = s.signalClosed ∧
      (Begin s).1.signalClosed = false ∧
      (Done (Begin s).1).1.signalClosed = true ∧
      closeCount ((Begin s).2 ++ (Done (Begin s).1).2) = 1 := by
  have hone : addInt32 (0 : Int) 1 = 1 := by decide
  have hzero : addInt32 (1 : Int) (-1) = 0 := by decide
  refine ⟨?_, ?_, ?_, ?_⟩
  · simp only [begin]
    split
    · split <;> rfl
    · rfl
  · simp only [Begin, BeginNamed, begin, h, hone, if_pos rfl]
    by_cases hi : s.initiator = "" <;> simp [hi, hs]
  · simp only [Begin, BeginNamed, Done, done, begin, h, hone, if_pos rfl]
    by_cases hi : s.initiator = "" <;> simp [hi, hzero]
  · simp only [Begin, BeginNamed, Done, done, begin, h, hone, if_pos rfl]
    by_cases hi : s.initiator = "" <;>
      simp [hi, hzero, closeCount, List.countP, List.countP.go]

/-- Witness for `completion_signal_lifecycle` at a concrete fresh handle. -/
theorem completion_signal_lifecycle_witness :
    ((begin freshHandle "Login").1.signalClosed = freshHandle.signalClosed ∧
      (Begin freshHandle).1.signalClosed = false ∧
      (Done (Begin freshHandle).1).1.signalClosed = true ∧
      closeCount ((Begin freshHandle).2 ++ (Done (Begin freshHandle).1).2) = 1) :=
  completion_signal_lifecycle freshHandle "Login" rfl rfl

/-- **C2.** For every callback `clb`, `Tx(clb)` first begins a transaction,
then invokes `clb` with the handle, ends the transaction (`Done`) on every
exit path — normal return with `nil`, return with an error, or panic — and
returns exactly the outcome produced by `clb`, unchanged.  Stated for an
arbitrary callback: the final state is `done` applied to the callback's
final state, the trace is `Begin`'s trace, then the callback's, then
`done`'s, and the outcome is the callback's. -/
theorem Tx_begin_call_done {ε : Type} (b : Prioritize)
    (clb : Prioritize → Prioritize × List Event × FnRes ε) :
    (Tx b clb).2.2 = (clb (Begin b).1).2.2 ∧
      (Tx b clb).1 = (done (clb (Begin b).1).1).1 ∧
      (Tx b clb).2.1 =
        (Begin b).2 ++ (clb (Begin b).1).2.1 ++ (done (clb (Begin b).1).1).2 := by
  rcases hB : Begin b with ⟨tx, t1⟩
  rcases hc : clb tx with ⟨s2, t2, r⟩
  rcases hd : done s2 with ⟨s3, t3⟩
  cases r <;> simp [Tx, hB, hc, hd]

theorem begin_isTx (s : Prioritize) (nm : String) :
    (begin s nm).1.isTx = addInt32 s.isTx 1 := by
  simp only [begin]
  split
  · split <;> rfl
  · rfl

theorem done_isTx (s : Prioritize) :
    (done s).1.isTx = addInt32 s.isTx (-1) := by
  simp only [done]
  split <;> rfl

theorem begin_done_isTx (s : Prioritize) (nm : String) (h : inInt32 s.isTx) :
    (done (begin s nm).1).1.isTx = s.isTx := by
  rw [done_isTx, begin_isTx, addInt32_one_sub_one h]

/-- **C4.** Each public state-touching operation is wrapped in a balanced
`begin`/`done` pair: the depth is incremented before the bot operation and
decremented afterwards, so the handle's depth after the operation equals its
depth before, and the operation's trace is exactly `begin`'s events, then
the bot call, then `done`'s events — the bot operation runs only between
the begin and the done.  Stated for the operations named in the claim:
`Login`, `Logout`, `GetPlanets`, `Build`, `SendFleet`, `GetPageContent`. -/
theorem state_ops_balanced (s : Prioritize) (h : inInt32 s.isTx) :
    ((Login s).1.isTx = s.isTx ∧
      (Login s).2 = (begin s "Login").2 ++ [Event.botCall "wrapLogin"] ++
        (done (begin s "Login").1).2) ∧
    ((Logout s).1.isTx = s.isTx ∧
      (Logout s).2 = (begin s "Logout").2 ++ [Event.botCall "logout"] ++
        (done (begin s "Logout").1).2) ∧
    ((GetPlanets s).1.isTx = s.isTx ∧
      (GetPlanets s).2 = (begin s "GetPlanets").2 ++
        [Event.botCall "getPlanets"] ++ (done (begin s "GetPlanets").1).2) ∧
    ((Build s).1.isTx = s.isTx ∧
      (Build s).2 = (begin s "Build").2 ++ [Event.botCall "build"] ++
        (done (begin s "Build").1).2) ∧
    ((SendFleet s).1.isTx = s.isTx ∧
      (SendFleet s).2 = (begin s "SendFleet").2 ++
        [Event.botCall "sendFleet"] ++ (done (begin s "SendFleet").1).2) ∧
    ((GetPageContent s).1.isTx = s.isTx ∧
      (GetPageContent s).2 = (begin s "GetPageContent").2 ++
        [Event.botCall "getPageContent"] ++
        (done (begin s "GetPageContent").1).2) := by
  refine ⟨⟨?_, rfl⟩, ⟨?_, rfl⟩, ⟨?_, rfl⟩, ⟨?_, rfl⟩, ⟨?_, rfl⟩, ⟨?_, rfl⟩⟩ <;>
    exact begin_done_isTx s _ h

/-- Witness for `state_ops_balanced` at a concrete fresh handle. -/
theorem state_ops_balanced_witness :
    (((Login freshHandle).1.isTx = freshHandle.isTx ∧
      (Login freshHandle).2 = (begin freshHandle "Login").2 ++
        [Event.botCall "wrapLogin"] ++ (done (begin freshHandle "Login").1).2) ∧
    ((Logout freshHandle).1.isTx = freshHandle.isTx ∧
      (Logout freshHandle).2 = (begin freshHandle "Logout").2 ++
        [Event.botCall "logout"] ++ (done (begin freshHandle "Logout").1).2) ∧
    ((GetPlanets freshHandle).1.isTx = freshHandle.isTx ∧
      (GetPlanets freshHandle).2 = (begin freshHandle "GetPlanets").2 ++
        [Event.botCall "getPlanets"] ++
        (done (begin freshHandle "GetPlanets").1).2) ∧
    ((Build freshHandle).1.isTx = freshHandle.isTx ∧
      (Build freshHandle).2 = (begin freshHandle "Build").2 ++
        [Event.botCall "build"] ++ (done (begin freshHandle "Build").1).2) ∧
    ((SendFleet freshHandle).1.isTx = freshHandle.isTx ∧
      (SendFleet freshHandle).2 = (begin freshHandle "SendFleet").2 ++
        [Event.botCall "sendFleet"] ++
        (done (begin freshHandle "SendFleet").1).2) ∧
    ((GetPageContent freshHandle).1.isTx = freshHandle.isTx ∧
      (GetPageContent freshHandle).2 = (begin freshHandle "GetPageContent").2 ++
        [Event.botCall "getPageContent"] ++
        (done (begin freshHandle "GetPageContent").1).2)) :=
  state_ops_balanced freshHandle (by constructor <;> decide)

/-- **C10.** Diagnostic-label aliasing: `UnsafePhalanx` begins its
transaction under the label `"Phalanx"` and `GetFleetsFromEventList` under
`"GetFleets"`, so the labels their traces present to the scheduler are
exactly those of `Phalanx` and `GetFleets` respectively — in the diagnostic
listing the operations are indistinguishable from them. -/
theorem diagnostic_label_aliasing (s : Prioritize) (h : s.isTx = 0)
    (hn : s.name = "") :
    lockLabels (UnsafePhalanx s).2 = lockLabels (Phalanx s).2 ∧
      lockLabels (GetFleetsFromEventList s).2 = lockLabels (GetFleets s).2 ∧
      lockLabels (UnsafePhalanx s).2 =
        [if s.initiator ≠ "" then s.initiator ++ ":" ++ "Phalanx" else "Phalanx"] ∧
      lockLabels (GetFleetsFromEventList s).2 =
        [if s.initiator ≠ "" then s.initiator ++ ":" ++ "GetFleets" else "GetFleets"] := by
  have hone : addInt32 (0 : Int) 1 = 1 := by decide
  have hzero : addInt32 (1 : Int) (-1) = 0 := by decide
  refine ⟨?_, ?_, ?_, ?_⟩ <;>
    · simp only [UnsafePhalanx, Phalanx, GetFleetsFromEventList, GetFleets,
        begin, done, h, hone, if_pos rfl]
      by_cases hi : s.initiator = "" <;>
        simp [hi, hn, hzero, lockLabels, String.append_assoc]

/-- Witness for `diagnostic_label_aliasing` at a concrete fresh handle. -/
theorem diagnostic_label_aliasing_witness :
    (lockLabels (UnsafePhalanx freshHandle).2 =
        lockLabels (Phalanx freshHandle).2 ∧
      lockLabels (GetFleetsFromEventList freshHandle).2 =
        lockLabels (GetFleets freshHandle).2 ∧
      lockLabels (UnsafePhalanx freshHandle).2 =
        [if freshHandle.initiator ≠ "" then
            freshHandle.initiator ++ ":" ++ "Phalanx" else "Phalanx"] ∧
      lockLabels (GetFleetsFromEventList freshHandle).2 =
        [if freshHandle.initiator ≠ "" then
            freshHandle.initiator ++ ":" ++ "GetFleets" else "GetFleets"]) :=
  diagnostic_label_aliasing freshHandle rfl rfl

theorem sched_step_admitted_le {s s' : SchedState} {e : SchedEv}
    (h : SchedStep s e s') : s.admitted.length ≤ 1 → s'.admitted.length ≤ 1 := by
  cases h <;> simp_all

theorem sched_trace_admitted_le {s s' : SchedState} {t : List SchedEv}
    (h : SchedTrace s t s') : s.admitted.length ≤ 1 → s'.admitted.length ≤ 1 := by
  induction h with
  | nil => exact id
  | cons h1 _ ih => exact fun hs => ih (sched_step_admitted_le h1 hs)

theorem sched_trace_append {u : List SchedEv} :
    ∀ {s s'' : SchedState} {v : List SchedEv}, SchedTrace s (u ++ v) s'' →
      ∃ m, SchedTrace s u m ∧ SchedTrace m v s'' := by
  induction u with
  | nil => exact fun h => ⟨_, SchedTrace.nil _, h⟩
  | cons e u ih =>
      intro s s'' v h
      cases h with
      | cons h1 h2 =>
          obtain ⟨m, hm1, hm2⟩ := ih h2
          exact ⟨m, SchedTrace.cons h1 hm1, hm2⟩

theorem sched_trace_no_release {s s' : SchedState} {t : List SchedEv}
    (h : SchedTrace s t s') :
    (∀ rid, SchedEv.release rid ∉ t) → s.admitted ≠ [] → s'.admitted ≠ [] := by
  induction h with
  | nil => exact fun _ hne => hne
  | cons h1 _ ih =>
      intro hnr hne
      refine ih (fun rid hmem => hnr rid (List.mem_cons_of_mem _ hmem)) ?_
      cases h1 with
      | enqueue r => exact hne
      | grant r hfree hmem hbest => exact absurd hfree hne
      | release rid hold => exact absurd (List.mem_cons_self _ _) (hnr rid)

/-- **C8.** Mutual exclusion of the exclusive section: along every trace of
the scheduler from its initial state, at most one request is admitted at any
instant, and whenever two admissions occur in the trace, a release lies
strictly between them — a second requester is admitted only after the
current holder has released. -/
theorem scheduler_mutual_exclusion (tr : List SchedEv) (s : SchedState)
    (h : SchedTrace schedInit tr s) :
    s.admitted.length ≤ 1 ∧
      ∀ t1 rid1 t2 rid2 t3,
        tr = t1 ++ SchedEv.grant rid1 :: (t2 ++ SchedEv.grant rid2 :: t3) →
        ∃ rid, SchedEv.release rid ∈ t2 := by
  constructor
  · exact sched_trace_admitted_le h (by simp [schedInit])
  · intro t1 rid1 t2 rid2 t3 heq
    rw [heq] at h
    obtain ⟨m1, _, h2⟩ := sched_trace_append h
    cases h2 with
    | cons hstep hrest =>
        obtain ⟨m3, h3, h4⟩ := sched_trace_append hrest
        cases h4 with
        | cons hstep2 _ =>
            by_contra hno
            push_neg at hno
            have hne : m3.admitted ≠ [] := by
              refine sched_trace_no_release h3 hno ?_
              cases hstep with
              | grant r hfree hmem hbest => simp
            cases hstep2 with
            | grant r hfree hmem hbest => exact hne hfree

/-- Witness for `scheduler_mutual_exclusion` on the concrete trace
enqueue, grant, release of a single Normal-priority request. -/
theorem scheduler_mutual_exclusion_witness :
    (⟨[], []⟩ : SchedState).admitted.length ≤ 1 ∧
      ∀ t1 rid1 t2 rid2 t3,
        [SchedEv.enqueue ⟨0, Normal, 0⟩, SchedEv.grant 0, SchedEv.release 0] =
          t1 ++ SchedEv.grant rid1 :: (t2 ++ SchedEv.grant rid2 :: t3) →
        ∃ rid, SchedEv.release rid ∈ t2 :=
  scheduler_mutual_exclusion _ _
    (SchedTrace.cons (SchedStep.enqueue schedInit ⟨0, Normal, 0⟩)
      (SchedTrace.cons
        (SchedStep.grant ⟨[⟨0, Normal, 0⟩], []⟩ ⟨0, Normal, 0⟩ rfl
          (by decide) (by unfold bestOf; decide))
        (SchedTrace.cons (SchedStep.release ⟨[], [0]⟩ 0 rfl)
          (SchedTrace.nil _))))

theorem leadsWith_append {old s : Bytes} (h : leadsWith old s = true) :
    old ++ List.drop old.length s = s := by
  induction old generalizing s with
  | nil => simp
  | cons a as ih =>
      cases s with
      | nil => exact absurd h (by simp [leadsWith])
      | cons b bs =>
          simp only [leadsWith, Bool.and_eq_true, beq_iff_eq] at h
          obtain ⟨rfl, hlw⟩ := h
          simpa using ih hlw

theorem replaceNE_spec {old : Bytes} (new : Bytes) (hne : old ≠ []) :
    ∀ fuel s, List.length s ≤ fuel →
      ReplSpec old new s (replaceNE fuel s old new) := by
  have hop : 0 < old.length := List.length_pos.mpr hne
  intro fuel
  induction fuel with
  | zero =>
      intro s hs
      have : s = [] := List.eq_nil_of_length_eq_zero (Nat.le_zero.mp hs)
      subst this
      exact ReplSpec.nil
  | succ fuel ih =>
      intro s hs
      cases s with
      | nil => exact ReplSpec.nil
      | cons c s' =>
          cases hlw : leadsWith old (c :: s') with
          | true =>
              have hlen : (List.drop old.length (c :: s')).length ≤ fuel := by
                rw [List.length_drop]
                simp only [List.length_cons] at hs ⊢
                omega
              have h1 := @ReplSpec.hit old new _ _ (ih _ hlen)
              rw [leadsWith_append hlw] at h1
              simpa only [replaceNE, hlw, if_true] using h1
          | false =>
              have h1 := ReplSpec.skip hlw (ih s' (by
                simp only [List.length_cons] at hs; omega))
              simpa only [replaceNE, hlw, Bool.false_eq_true, if_false] using h1

theorem bytesReplace_spec {old : Bytes} (new s : Bytes) (hne : old ≠ []) :
    ReplSpec old new s (bytesReplace s old new) := by
  unfold bytesReplace
  rw [if_neg hne]
  exact replaceNE_spec new hne s.length s le_rfl

theorem ReplSpec.ne_nil {old new s t : Bytes} (h : ReplSpec old new s t)
    (hs : s ≠ []) (hnew : new ≠ []) : t ≠ [] := by
  cases h with
  | nil => exact absurd rfl hs
  | hit _ => simp [hnew]
  | skip _ _ => simp

theorem escapedForm_ne_nil {b : Bytes} (hb : b ≠ []) : escapedForm b ≠ [] :=
  ReplSpec.ne_nil (bytesReplace_spec _ b (by decide)) hb (by decide)

theorem doubleEscapedForm_ne_nil {b : Bytes} (hb : b ≠ []) :
    doubleEscapedForm b ≠ [] :=
  ReplSpec.ne_nil (bytesReplace_spec _ b (by decide)) hb (by decide)

/-- **C9, amended.** `ReplaceHostname` performs three *sequential* global
replacements — plain server URL, then JSON-escaped, then double-escaped —
each pass replacing every leftmost non-overlapping occurrence of its
pattern in the *output of the previous pass* and leaving the other bytes of
that intermediate string unchanged (for a nonempty server URL).  Because
later passes see the substitutions of earlier ones, replacements may
cascade, so the result is not in general the simultaneous replacement the
claim describes. -/
theorem replace_hostname_three_passes (serverURL apiNewHostname html : Bytes)
    (h : serverURL ≠ []) :
    ReplSpec serverURL apiNewHostname html
        (bytesReplace html serverURL apiNewHostname) ∧
      ReplSpec (escapedForm serverURL) (escapedForm apiNewHostname)
        (bytesReplace html serverURL apiNewHostname)
        (bytesReplace (bytesReplace html serverURL apiNewHostname)
          (escapedForm serverURL) (escapedForm apiNewHostname)) ∧
      ReplSpec (doubleEscapedForm serverURL) (doubleEscapedForm apiNewHostname)
        (bytesReplace (bytesReplace html serverURL apiNewHostname)
          (escapedForm serverURL) (escapedForm apiNewHostname))
        (ReplaceHostname serverURL apiNewHostname html) :=
  ⟨bytesReplace_spec _ _ h,
    bytesReplace_spec _ _ (escapedForm_ne_nil h),
    bytesReplace_spec _ _ (doubleEscapedForm_ne_nil h)⟩

/-- Witness for `replace_hostname_three_passes` at a concrete input. -/
theorem replace_hostname_three_passes_witness :
    ReplSpec ['/'] ['x'] ['/']
        (bytesReplace ['/'] ['/'] ['x']) ∧
      ReplSpec (escapedForm ['/']) (escapedForm ['x'])
        (bytesReplace ['/'] ['/'] ['x'])
        (bytesReplace (bytesReplace ['/'] ['/'] ['x'])
          (escapedForm ['/']) (escapedForm ['x'])) ∧
      ReplSpec (doubleEscapedForm ['/']) (doubleEscapedForm ['x'])
        (bytesReplace (bytesReplace ['/'] ['/'] ['x'])
          (escapedForm ['/']) (escapedForm ['x']))
        (ReplaceHostname ['/'] ['x'] ['/']) :=
  replace_hostname_three_passes ['/'] ['x'] ['/'] (by decide)

/-- **C9, counterexample.** For the configuration with server URL `"a"` and
new hostname `"ba"` (all three encodings coincide with the plain forms,
since no slash occurs), and input html `"a"`, the code returns `"bbba"`:
the first pass yields `"ba"`, whose `"a"` the second pass rewrites again,
and so on.  The claimed simultaneous replacement of all occurrences, other
bytes unchanged, would give `"ba"`; `"bbba"` does not satisfy it. -/
theorem replace_hostname_not_simultaneous :
    ReplaceHostname ['a'] ['b', 'a'] ['a'] = ['b', 'b', 'b', 'a'] ∧
      ¬ TripleRepl ['a'] ['b', 'a'] (escapedForm ['a']) (escapedForm ['b', 'a'])
          (doubleEscapedForm ['a']) (doubleEscapedForm ['b', 'a'])
          ['a'] (ReplaceHostname ['a'] ['b', 'a'] ['a']) := by
  have hrh : ReplaceHostname ['a'] ['b', 'a'] ['a'] = ['b', 'b', 'b', 'a'] := by
    decide
  refine ⟨hrh, ?_⟩
  intro hT
  rw [hrh] at hT
  rw [show escapedForm ['a'] = ['a'] from by decide,
    show escapedForm ['b', 'a'] = ['b', 'a'] from by decide,
    show doubleEscapedForm ['a'] = ['a'] from by decide,
    show doubleEscapedForm ['b', 'a'] = ['b', 'a'] from by decide] at hT
  cases hT


end Ogame
